import Mathlib

/-
Verification development for the StudyLogix study-tracking application.

The embedding models the relational tables of `database.py` as Lean lists of
structure values, and each manager method (`managers.py`, `friend_manager.py`,
`pomodoro_manager.py`, `analytics.py`) as a pure function from the relevant
table contents to its result, threading the updated table contents explicitly
where the method writes.  Dates and timestamps are modelled as integer day
numbers (ISO date strings compare lexicographically in SQLite, which agrees
with chronological order, so an integer model is faithful); the SQLite
current-date expression and `datetime.now()` become explicit `today` / `now`
parameters.

The source contains two incompatible layouts of the `pomodoro_sessions`
table: `database.py` / `friend_manager.py` use columns
(session_id, user_id, subject, duration_minutes, status, started_at, ...),
while `pomodoro_manager.py` reads and writes columns
(id, user_id, subject, start_time, end_time, duration, session_type,
completed).  Each module is modelled against the layout it actually uses:
`PomodoroRow` for the friend-manager queries and `PomoSession` for the
pomodoro-manager operations.
-/

namespace StudyLogix

/-- Friendship status, per the CHECK constraint of the `friendships` table in
`database.py`. -/
inductive FStatus
| pending
| accepted
| rejected
| blocked
deriving DecidableEq

/-- A row of the `users` table (the columns the modelled queries touch). -/
structure UserRow where
  user_id : Nat
  username : String
deriving DecidableEq

/-- A row of the `friendships` table. -/
structure FriendshipRow where
  friendship_id : Nat
  user_id : Nat
  friend_id : Nat
  status : FStatus
deriving DecidableEq

/-- The tables consulted by `FriendManager`: `users`, `friendships`, plus the
AUTOINCREMENT counter for `friendship_id`. -/
structure FriendDB where
  users : List UserRow
  friendships : List FriendshipRow
  next_friendship_id : Nat
deriving DecidableEq

/-- A row of the `study_sessions` table (the columns the modelled queries
touch); `session_date` is a day number. -/
structure StudySession where
  user_id : Nat
  subject : String
  duration_minutes : Nat
  session_date : Int
deriving DecidableEq

/-- A row of the `study_goals` table; `week_start_date` is a day number. -/
structure GoalRow where
  user_id : Nat
  subject : String
  weekly_target_minutes : Nat
  week_start_date : Int
deriving DecidableEq

/-- Pomodoro status per the CHECK constraint of `pomodoro_sessions` in
`database.py` (the layout `friend_manager.py` queries). -/
inductive PStatus
| active
| completed
| cancelled
deriving DecidableEq

/-- A row of `pomodoro_sessions` in the `database.py` layout, as read by
`friend_manager.py`; `started_date` is the day number `DATE(started_at)`. -/
structure PomodoroRow where
  user_id : Nat
  status : PStatus
  started_date : Int
  duration_minutes : Nat
deriving DecidableEq

/-- A row of `pomodoro_sessions` in the layout `pomodoro_manager.py` reads and
writes: (id, user_id, subject, start_time, end_time, duration, session_type,
completed). -/
structure PomoSession where
  id : Nat
  user_id : Nat
  subject : String
  start_time : Int
  end_time : Int
  duration : Nat
  session_type : String
  completed : Bool
deriving DecidableEq

/-- A row of the `active_timers` table. -/
structure ActiveTimer where
  user_id : Nat
  session_id : Nat
  subject : String
  duration_minutes : Nat
  time_remaining : Int
  is_break : Bool
deriving DecidableEq

/-! ## Goal reconciler (`GoalManager` in `managers.py`) -/

/-- The per-goal session total contributed by the LEFT JOIN of
`GoalManager.get_weekly_progress`: sum of `duration_minutes` over
`study_sessions` rows with the user and subject of the goal and
`session_date BETWEEN week_start AND week_start + 6`. -/
def sessionSum (sessions : List StudySession) (uid : Nat) (subject : String)
    (week_start : Int) : Nat :=
  ((sessions.filter (fun s =>
      s.user_id = uid ∧ s.subject = subject ∧
      week_start ≤ s.session_date ∧ s.session_date ≤ week_start + 6)).map
    (fun s => s.duration_minutes)).sum

/-- The WHERE clause of `GoalManager.get_weekly_progress`: the goals of the
user whose `week_start_date` is the given week. -/
def weekGoals (goals : List GoalRow) (uid : Nat) (week_start : Int) : List GoalRow :=
  goals.filter (fun g => g.user_id = uid ∧ g.week_start_date = week_start)

/-- `GoalManager.get_weekly_progress` (`managers.py`): goals of the user for
the given week, LEFT JOINed with the matching sessions of the inclusive
7-day window and grouped by `(subject, weekly_target_minutes)`; a group whose
join rows are all NULL yields `COALESCE(SUM(...), 0) = 0`. -/
def get_weekly_progress (goals : List GoalRow) (sessions : List StudySession)
    (uid : Nat) (week_start : Int) : List (String × Nat × Nat) :=
  let gs := weekGoals goals uid week_start
  let keys := (gs.map (fun g => (g.subject, g.weekly_target_minutes))).dedup
  keys.map (fun k => (k.1, k.2,
    ((gs.filter (fun g => g.subject = k.1 ∧ g.weekly_target_minutes = k.2)).map
      (fun g => sessionSum sessions uid g.subject week_start)).sum))

/-- The percentage-complete figure of `AnalyticsManager.print_study_summary`
(`analytics.py`): `(actual / target * 100) if target > 0 else 0`. -/
def goalPercentage (actual target : Nat) : ℚ :=
  if 0 < target then (actual : ℚ) / (target : ℚ) * 100 else 0

/-! ## Friend manager (`friend_manager.py`) -/

/-- The accepted-friendship join condition used by `get_friends_list`,
`get_friends_progress` and `get_active_friend_timers`: some `friendships` row
links `me` and `other` in either direction with status `accepted`. -/
def acceptedBetween (fs : List FriendshipRow) (me other : Nat) : Bool :=
  fs.any (fun f =>
    ((f.user_id = me ∧ f.friend_id = other) ∨ (f.friend_id = me ∧ f.user_id = other)) ∧
    f.status = FStatus.accepted)

/-- The WHERE clause of the existing-friendship check of
`send_friend_request`: a row between the two users in either direction. -/
def betweenPair (user_id friend_id : Nat) : FriendshipRow → Bool :=
  fun f =>
    (f.user_id = user_id ∧ f.friend_id = friend_id) ∨
    (f.user_id = friend_id ∧ f.friend_id = user_id)

/-- A row in the exact direction `user_id → friend_id`, the key of the
`UNIQUE(user_id, friend_id)` constraint of the `friendships` schema. -/
def sameDirection (user_id friend_id : Nat) : FriendshipRow → Bool :=
  fun f => f.user_id = user_id ∧ f.friend_id = friend_id

/-- The INSERT of `send_friend_request`, including the
`UNIQUE(user_id, friend_id)` constraint of the `friendships` schema: a
violating INSERT raises `sqlite3.Error`, which the method catches and reports
as `(False, "Failed to send friend request")`. -/
def insertPending (db : FriendDB) (user_id friend_id : Nat) :
    (Bool × String) × FriendDB :=
  if db.friendships.any (sameDirection user_id friend_id) then
    ((false, "Failed to send friend request"), db)
  else
    ((true, "Friend request sent!"),
     { db with
       friendships := db.friendships ++
         [⟨db.next_friendship_id, user_id, friend_id, FStatus.pending⟩],
       next_friendship_id := db.next_friendship_id + 1 })

/-- `FriendManager.send_friend_request`: look the friend up by username,
reject self-friending, fetch one existing row between the pair (either
direction) and reject if its status is accepted, pending or blocked — a
`rejected` status falls through all three branches — then INSERT a pending
row. -/
def send_friend_request (db : FriendDB) (user_id : Nat) (friend_username : String) :
    (Bool × String) × FriendDB :=
  match db.users.find? (fun u => u.username = friend_username) with
  | none => ((false, "User not found"), db)
  | some u =>
    if user_id = u.user_id then ((false, "Cannot add yourself as a friend"), db)
    else
      match db.friendships.find? (betweenPair user_id u.user_id) with
      | some e =>
        if e.status = FStatus.accepted then ((false, "Already friends"), db)
        else if e.status = FStatus.pending then
          ((false, "Friend request already pending"), db)
        else if e.status = FStatus.blocked then
          ((false, "Cannot send friend request"), db)
        else insertPending db user_id u.user_id
      | none => insertPending db user_id u.user_id

/-- `FriendManager.respond_to_request`: the UPDATE runs only when a row with
this `friendship_id` exists whose `friend_id` is the caller and whose status
is `pending`; the UPDATE itself is keyed on `friendship_id` alone. -/
def respond_to_request (db : FriendDB) (friendship_id user_id : Nat)
    (accept : Bool) : (Bool × String) × FriendDB :=
  match db.friendships.find? (fun f =>
      f.friendship_id = friendship_id ∧ f.friend_id = user_id ∧
      f.status = FStatus.pending) with
  | none => ((false, "Friend request not found"), db)
  | some _ =>
    let new_status := if accept then FStatus.accepted else FStatus.rejected
    ((true, if accept then "Friend request accepted" else "Friend request rejected"),
     { db with friendships := db.friendships.map (fun f =>
         if f.friendship_id = friendship_id then { f with status := new_status } else f) })

/-- `FriendManager.get_friends_list`: users joined against an accepted
friendship row in either direction.  The SQL `DISTINCT` is inherent here
because each `users` row is examined once; `ORDER BY username` is
presentational and not modelled. -/
def get_friends_list (db : FriendDB) (uid : Nat) : List UserRow :=
  db.users.filter (fun u => acceptedBetween db.friendships uid u.user_id)

/-- The first per-friend query of `get_friends_progress`:
`SUM(duration_minutes)` over `study_sessions` with
`session_date >= today - 7 days` (no upper bound). -/
def regularWeekMinutes (sessions : List StudySession) (uid : Nat) (today : Int) : Nat :=
  ((sessions.filter (fun s => s.user_id = uid ∧ today - 7 ≤ s.session_date)).map
    (fun s => s.duration_minutes)).sum

/-- The second per-friend query of `get_friends_progress`:
`SUM(duration_minutes)` over `pomodoro_sessions` with status `completed` and
`DATE(started_at) >= today - 7 days` (no upper bound). -/
def pomodoroWeekMinutes (pomos : List PomodoroRow) (uid : Nat) (today : Int) : Nat :=
  ((pomos.filter (fun p =>
      p.user_id = uid ∧ p.status = PStatus.completed ∧ today - 7 ≤ p.started_date)).map
    (fun p => p.duration_minutes)).sum

/-- The third per-friend query of `get_friends_progress`: `COUNT(*)` over
completed `pomodoro_sessions` with `DATE(started_at)` equal to today. -/
def todaySessionCount (pomos : List PomodoroRow) (uid : Nat) (today : Int) : Nat :=
  (pomos.filter (fun p =>
    p.user_id = uid ∧ p.status = PStatus.completed ∧ p.started_date = today)).length

/-- One output record of `FriendManager.get_friends_progress`. -/
structure FriendProgress where
  user_id : Nat
  username : String
  weekly_minutes : Nat
  today_sessions : Nat
deriving DecidableEq

/-- `FriendManager.get_friends_progress`: for each accepted friend, the sum of
the two 7-day-window queries plus the today-count. -/
def get_friends_progress (db : FriendDB) (sessions : List StudySession)
    (pomos : List PomodoroRow) (uid : Nat) (today : Int) : List FriendProgress :=
  (db.users.filter (fun u => acceptedBetween db.friendships uid u.user_id)).map
    (fun u =>
      ⟨u.user_id, u.username,
       regularWeekMinutes sessions u.user_id today +
         pomodoroWeekMinutes pomos u.user_id today,
       todaySessionCount pomos u.user_id today⟩)

/-- The spec reading of the manual-session window of `get_friends_progress`
("session_date in the trailing 7 days"): the same lower bound the code uses,
together with an upper bound at today.  Kept separate from
`regularWeekMinutes` (the code window) for comparison. -/
def specTrailingWeekMinutes (sessions : List StudySession) (uid : Nat)
    (today : Int) : Nat :=
  ((sessions.filter (fun s =>
      s.user_id = uid ∧ today - 7 ≤ s.session_date ∧ s.session_date ≤ today)).map
    (fun s => s.duration_minutes)).sum

/-- The spec reading of the pomodoro window of `get_friends_progress`
(completed pomodoro minutes "in the trailing 7 days"): lower bound as in the
code, upper bound at today.  Kept separate from `pomodoroWeekMinutes` (the
code window) for comparison. -/
def specPomodoroTrailingMinutes (pomos : List PomodoroRow) (uid : Nat)
    (today : Int) : Nat :=
  ((pomos.filter (fun p =>
      p.user_id = uid ∧ p.status = PStatus.completed ∧
      today - 7 ≤ p.started_date ∧ p.started_date ≤ today)).map
    (fun p => p.duration_minutes)).sum

/-- One output record of `FriendManager.get_active_friend_timers`. -/
structure ActiveTimerView where
  username : String
  subject : String
  duration_minutes : Nat
  time_remaining : Int
  is_break : Bool
deriving DecidableEq

/-- `FriendManager.get_active_friend_timers`: active timers joined with their
owning `users` row and an accepted friendship to the caller, keeping only
rows with `time_remaining > 0` (`ORDER BY username` not modelled). -/
def get_active_friend_timers (db : FriendDB) (timers : List ActiveTimer)
    (uid : Nat) : List ActiveTimerView :=
  timers.flatMap (fun t =>
    (db.users.filter (fun u =>
        u.user_id = t.user_id ∧ acceptedBetween db.friendships uid t.user_id ∧
        0 < t.time_remaining)).map
      (fun u => ⟨u.username, t.subject, t.duration_minutes, t.time_remaining, t.is_break⟩))

/-- `FriendManager.update_active_timer`: DELETE every `active_timers` row of
the user, then INSERT a fresh row only when `time_remaining > 0`. -/
def update_active_timer (timers : List ActiveTimer) (user_id session_id : Nat)
    (subject : String) (duration_minutes : Nat) (time_remaining : Int)
    (is_break : Bool) : Bool × List ActiveTimer :=
  let cleared := timers.filter (fun t => ¬ t.user_id = user_id)
  if 0 < time_remaining then
    (true, cleared ++
      [⟨user_id, session_id, subject, duration_minutes, time_remaining, is_break⟩])
  else (true, cleared)

/-! ## Pomodoro manager (`pomodoro_manager.py`) -/

/-- `PomodoroManager.start_pomodoro_session`: INSERT a fresh row with
`duration = 0`, `session_type = "focus"`, `completed = False`, both
timestamps at now. -/
def start_pomodoro_session (sessions : List PomoSession) (next_id uid : Nat)
    (subject : String) (now : Int) : (Bool × Nat × String) × List PomoSession :=
  ((true, next_id, "Pomodoro session started!"),
   sessions ++ [⟨next_id, uid, subject, now, now, 0, "focus", false⟩])

/-- `PomodoroManager.complete_pomodoro_session`: UPDATE `end_time`, `duration`
and `completed` on every row with this `id` — there is no predicate on the
current `completed` flag — then report success iff `cursor.rowcount > 0`. -/
def complete_pomodoro_session (sessions : List PomoSession) (session_id : Nat)
    (duration_minutes : Nat) (now : Int) : (Bool × String) × List PomoSession :=
  let updated := sessions.map (fun s =>
    if s.id = session_id then
      { s with end_time := now, duration := duration_minutes, completed := true }
    else s)
  if 0 < sessions.countP (fun s => s.id = session_id) then
    ((true, "Pomodoro session completed!"), updated)
  else
    ((false, "Session not found"), updated)

/-- `PomodoroManager.cancel_pomodoro_session`: DELETE the row with this `id`
when it is not completed, and return success unconditionally (the rowcount is
never consulted). -/
def cancel_pomodoro_session (sessions : List PomoSession) (session_id : Nat) :
    (Bool × String) × List PomoSession :=
  ((true, "Pomodoro session cancelled"),
   sessions.filter (fun s => ¬ (s.id = session_id ∧ s.completed = false)))

/-- The result record of
`PomodoroManager.get_total_study_time_including_pomodoros`. -/
structure TotalStudyTime where
  regular_minutes : Nat
  pomodoro_minutes : Nat
  total_minutes : Nat
  total_hours : Nat
  remaining_minutes : Nat
deriving DecidableEq

/-- `PomodoroManager.get_total_study_time_including_pomodoros`: regular
minutes over all study sessions of the user, pomodoro minutes over the
rows of the user with `completed` and `session_type = "focus"`, and the
hour/minute split of the total by `// 60` and `% 60`. -/
def get_total_study_time_including_pomodoros (sessions : List StudySession)
    (pomos : List PomoSession) (uid : Nat) : TotalStudyTime :=
  let regular_time :=
    ((sessions.filter (fun s => s.user_id = uid)).map (fun s => s.duration_minutes)).sum
  let pomodoro_time :=
    ((pomos.filter (fun s =>
        s.user_id = uid ∧ s.completed = true ∧ s.session_type = "focus")).map
      (fun s => s.duration)).sum
  let total_time := regular_time + pomodoro_time
  ⟨regular_time, pomodoro_time, total_time, total_time / 60, total_time % 60⟩

/-! ## Helper lemmas -/

theorem filter_not_filter {α : Type} (p : α → Prop) [DecidablePred p] (l : List α) :
    (l.filter (fun a => ¬ p a)).filter (fun a => p a) = [] := by
  induction l with
  | nil => rfl
  | cons a l ih => by_cases h : p a <;> simp [List.filter_cons, h, ih]

theorem countP_filter_not {α : Type} (p : α → Prop) [DecidablePred p] (l : List α) :
    (l.filter (fun a => ¬ p a)).countP (fun a => p a) = 0 := by
  rw [List.countP_eq_length_filter, filter_not_filter]
  rfl

theorem filter_not_idem {α : Type} (p : α → Prop) [DecidablePred p] (l : List α) :
    (l.filter (fun a => ¬ p a)).filter (fun a => ¬ p a) = l.filter (fun a => ¬ p a) := by
  apply List.filter_eq_self.mpr
  intro a ha
  exact (List.mem_filter.mp ha).2

/-! ## Claim theorems -/

/-- C7: `update_active_timer` deletes every timer row of the user and inserts
a fresh one only when `time_remaining > 0`.  Afterwards the user has at most
one row; a call with `time_remaining ≤ 0` leaves no row for the user; when a
row survives it carries exactly the fields of the latest call; rows of other
users are untouched; and `get_active_friend_timers` only returns rows with
positive `time_remaining`. -/
theorem active_timer_replacement (timers : List ActiveTimer) (db : FriendDB)
    (user_id session_id : Nat) (subject : String) (duration_minutes : Nat)
    (time_remaining : Int) (is_break : Bool) :
    ((update_active_timer timers user_id session_id subject duration_minutes
        time_remaining is_break).2.countP (fun t => t.user_id = user_id) ≤ 1) ∧
    (time_remaining ≤ 0 →
      (update_active_timer timers user_id session_id subject duration_minutes
          time_remaining is_break).2.filter (fun t => t.user_id = user_id) = []) ∧
    (0 < time_remaining →
      (update_active_timer timers user_id session_id subject duration_minutes
          time_remaining is_break).2.filter (fun t => t.user_id = user_id) =
        [⟨user_id, session_id, subject, duration_minutes, time_remaining, is_break⟩]) ∧
    ((update_active_timer timers user_id session_id subject duration_minutes
        time_remaining is_break).2.filter (fun t => ¬ t.user_id = user_id) =
      timers.filter (fun t => ¬ t.user_id = user_id)) ∧
    (∀ uid v, v ∈ get_active_friend_timers db timers uid → 0 < v.time_remaining) := by
  have hpos : ∀ uid v, v ∈ get_active_friend_timers db timers uid →
      0 < v.time_remaining := by
    intro uid v hv
    unfold get_active_friend_timers at hv
    rw [List.mem_flatMap] at hv
    obtain ⟨t, _, hv⟩ := hv
    rw [List.mem_map] at hv
    obtain ⟨u, hu, rfl⟩ := hv
    have h2 := (List.mem_filter.mp hu).2
    simp only [decide_eq_true_eq] at h2
    exact h2.2.2
  unfold update_active_timer
  by_cases h : 0 < time_remaining
  · rw [if_pos h]
    refine ⟨?_, ?_, ?_, ?_, hpos⟩
    · rw [List.countP_append,
        countP_filter_not (fun t : ActiveTimer => t.user_id = user_id)]
      simp
    · intro h'
      exact absurd h (not_lt.mpr h')
    · intro _
      rw [List.filter_append,
        filter_not_filter (fun t : ActiveTimer => t.user_id = user_id)]
      simp
    · rw [List.filter_append,
        filter_not_idem (fun t : ActiveTimer => t.user_id = user_id)]
      simp
  · rw [if_neg h]
    refine ⟨?_, ?_, ?_, ?_, hpos⟩
    · rw [countP_filter_not (fun t : ActiveTimer => t.user_id = user_id)]
      exact Nat.zero_le 1
    · intro _
      exact filter_not_filter (fun t : ActiveTimer => t.user_id = user_id) timers
    · intro h'
      exact absurd h' h
    · exact filter_not_idem (fun t : ActiveTimer => t.user_id = user_id) timers

/-- Witness for `active_timer_replacement`: a concrete call with
`time_remaining = 0` leaves no row for the user. -/
theorem active_timer_replacement_witness :
    ((0 : Int) ≤ 0) ∧
    (update_active_timer [⟨1, 2, "math", 25, 10, false⟩] 1 3 "bio" 25 0
        false).2.filter (fun t => t.user_id = 1) = [] :=
  ⟨by decide,
   (active_timer_replacement [⟨1, 2, "math", 25, 10, false⟩] ⟨[], [], 0⟩ 1 3
      "bio" 25 0 false).2.1 (by decide)⟩

/-- C10: `respond_to_request` succeeds exactly when a still-pending row with
the given id whose recipient is the caller exists; otherwise it returns
`(False, "Friend request not found")` and changes nothing; and a row with a
different id is never modified. -/
theorem respond_to_request_guard (db : FriendDB) (fid uid : Nat) (accept : Bool) :
    ((¬ ∃ f ∈ db.friendships, f.friendship_id = fid ∧ f.friend_id = uid ∧
        f.status = FStatus.pending) →
      respond_to_request db fid uid accept = ((false, "Friend request not found"), db)) ∧
    ((respond_to_request db fid uid accept).1.1 = true ↔
      ∃ f ∈ db.friendships, f.friendship_id = fid ∧ f.friend_id = uid ∧
        f.status = FStatus.pending) ∧
    (∀ g ∈ db.friendships, g.friendship_id ≠ fid →
      g ∈ (respond_to_request db fid uid accept).2.friendships) := by
  unfold respond_to_request
  cases hf : db.friendships.find? (fun f =>
      f.friendship_id = fid ∧ f.friend_id = uid ∧ f.status = FStatus.pending) with
  | none =>
    rw [List.find?_eq_none] at hf
    refine ⟨fun _ => rfl, ?_, ?_⟩
    · refine iff_of_false (by simp) ?_
      rintro ⟨f, hmem, hp⟩
      have hnp := hf f hmem
      simp only [decide_eq_true_eq] at hnp
      exact hnp hp
    · intro g hg _
      exact hg
  | some f =>
    have hp := List.find?_some hf
    simp only [decide_eq_true_eq] at hp
    have hmem := List.mem_of_find?_eq_some hf
    refine ⟨?_, ?_, ?_⟩
    · intro hno
      exact absurd ⟨f, hmem, hp⟩ hno
    · exact iff_of_true rfl ⟨f, hmem, hp⟩
    · intro g hg hne
      exact List.mem_map.mpr ⟨g, hg, by rw [if_neg hne]⟩

/-- Witness for `respond_to_request_guard`: responding on an empty store
fails and leaves the store unchanged. -/
theorem respond_to_request_guard_witness :
    (¬ ∃ f ∈ ([] : List FriendshipRow), f.friendship_id = 1 ∧ f.friend_id = 2 ∧
        f.status = FStatus.pending) ∧
    respond_to_request ⟨[], [], 0⟩ 1 2 true =
      ((false, "Friend request not found"), ⟨[], [], 0⟩) :=
  ⟨by decide, (respond_to_request_guard ⟨[], [], 0⟩ 1 2 true).1 (by decide)⟩

/-- C3 counterexample: the UPDATE of `complete_pomodoro_session` is keyed on
the id alone, with no predicate on the current state, so completing an
already-completed session reports success (and overwrites the stored row)
instead of returning a failure result. -/
theorem complete_completed_counterexample :
    (complete_pomodoro_session [⟨1, 7, "math", 0, 3, 25, "focus", true⟩] 1 30 5).1.1
      = true ∧
    (complete_pomodoro_session [⟨1, 7, "math", 0, 3, 25, "focus", true⟩] 1 30 5).2 =
      [⟨1, 7, "math", 0, 5, 30, "focus", true⟩] := by
  decide

/-- C3 amended: `complete_pomodoro_session` succeeds exactly when a session
with the given id exists, regardless of its `completed` flag (re-completing
overwrites the row); a nonexistent id — which includes previously cancelled
sessions, since cancellation deletes the row — returns failure without an
exception and leaves every stored session unchanged. -/
theorem complete_pomodoro_session_amended (sessions : List PomoSession)
    (sid dur : Nat) (now : Int) :
    ((complete_pomodoro_session sessions sid dur now).1.1 = true ↔
      ∃ s ∈ sessions, s.id = sid) ∧
    ((∀ s ∈ sessions, s.id ≠ sid) →
      (complete_pomodoro_session sessions sid dur now).2 = sessions) ∧
    (∀ s ∈ sessions, s.id ≠ sid →
      s ∈ (complete_pomodoro_session sessions sid dur now).2) ∧
    (∀ s ∈ sessions, s.id = sid →
      { s with end_time := now, duration := dur, completed := true } ∈
        (complete_pomodoro_session sessions sid dur now).2) := by
  have hstate : (complete_pomodoro_session sessions sid dur now).2 =
      sessions.map (fun s => if s.id = sid then
        { s with end_time := now, duration := dur, completed := true } else s) := by
    unfold complete_pomodoro_session
    by_cases hc : 0 < sessions.countP (fun s => s.id = sid)
    · rw [if_pos hc]
    · rw [if_neg hc]
  refine ⟨?_, ?_, ?_, ?_⟩
  · unfold complete_pomodoro_session
    by_cases hc : 0 < sessions.countP (fun s => s.id = sid)
    · rw [if_pos hc]
      refine iff_of_true rfl ?_
      have := List.countP_pos_iff.mp hc
      simpa using this
    · rw [if_neg hc]
      refine iff_of_false (by simp) ?_
      rintro ⟨s, hs, heq⟩
      exact hc (List.countP_pos_iff.mpr ⟨s, hs, by simp [heq]⟩)
  · intro hall
    rw [hstate]
    have : sessions.map (fun s => if s.id = sid then
        { s with end_time := now, duration := dur, completed := true } else s) =
        sessions.map (fun s => s) :=
      List.map_congr_left (fun s hs => if_neg (hall s hs))
    rw [this, List.map_id']
  · intro s hs hne
    rw [hstate]
    exact List.mem_map.mpr ⟨s, hs, if_neg hne⟩
  · intro s hs heq
    rw [hstate]
    exact List.mem_map.mpr ⟨s, hs, if_pos heq⟩

/-- Witness for `complete_pomodoro_session_amended`: completing an unknown id
leaves the store unchanged. -/
theorem complete_pomodoro_session_amended_witness :
    (∀ s ∈ ([⟨2, 7, "math", 0, 0, 0, "focus", false⟩] : List PomoSession),
      s.id ≠ 1) ∧
    (complete_pomodoro_session [⟨2, 7, "math", 0, 0, 0, "focus", false⟩] 1 30 5).2 =
      [⟨2, 7, "math", 0, 0, 0, "focus", false⟩] :=
  ⟨by decide,
   (complete_pomodoro_session_amended [⟨2, 7, "math", 0, 0, 0, "focus", false⟩]
      1 30 5).2.1 (by decide)⟩

/-- C4 counterexample: `cancel_pomodoro_session` never consults the DELETE
rowcount and returns success unconditionally, so cancelling an
already-completed session reports success (the row survives untouched)
instead of returning a failure result. -/
theorem cancel_completed_counterexample :
    (cancel_pomodoro_session [⟨1, 7, "math", 0, 3, 25, "focus", true⟩] 1).1.1
      = true ∧
    (cancel_pomodoro_session [⟨1, 7, "math", 0, 3, 25, "focus", true⟩] 1).2 =
      [⟨1, 7, "math", 0, 3, 25, "focus", true⟩] := by
  decide

/-- C4 amended: `cancel_pomodoro_session` always reports success; it deletes
the row with the given id only when that row is not completed, it preserves
every completed row and every row with a different id, and when every row
with the given id is completed the store is left entirely unchanged (there is
no stored cancelled state in this layout — cancellation removes the row). -/
theorem cancel_pomodoro_session_amended (sessions : List PomoSession) (sid : Nat) :
    (cancel_pomodoro_session sessions sid).1 = (true, "Pomodoro session cancelled") ∧
    (∀ s ∈ sessions, s.completed = true ∨ s.id ≠ sid →
      s ∈ (cancel_pomodoro_session sessions sid).2) ∧
    (∀ s ∈ (cancel_pomodoro_session sessions sid).2,
      s ∈ sessions ∧ ¬ (s.id = sid ∧ s.completed = false)) ∧
    ((∀ s ∈ sessions, s.id = sid → s.completed = true) →
      (cancel_pomodoro_session sessions sid).2 = sessions) := by
  refine ⟨rfl, ?_, ?_, ?_⟩
  · intro s hs hor
    apply List.mem_filter.mpr
    refine ⟨hs, ?_⟩
    simp only [decide_eq_true_eq]
    rintro ⟨hid, hcf⟩
    rcases hor with hc | hne
    · rw [hc] at hcf
      exact Bool.noConfusion hcf
    · exact hne hid
  · intro s hs
    have hm := List.mem_filter.mp hs
    refine ⟨hm.1, ?_⟩
    have h2 := hm.2
    simp only [decide_eq_true_eq] at h2
    exact h2
  · intro hall
    apply List.filter_eq_self.mpr
    intro s hs
    simp only [decide_eq_true_eq]
    rintro ⟨hid, hcf⟩
    rw [hall s hs hid] at hcf
    exact Bool.noConfusion hcf

/-- Witness for `cancel_pomodoro_session_amended`: cancelling when the only
row with the id is completed leaves the store unchanged. -/
theorem cancel_pomodoro_session_amended_witness :
    (∀ s ∈ ([⟨1, 7, "math", 0, 3, 25, "focus", true⟩] : List PomoSession),
      s.id = 1 → s.completed = true) ∧
    (cancel_pomodoro_session [⟨1, 7, "math", 0, 3, 25, "focus", true⟩] 1).2 =
      [⟨1, 7, "math", 0, 3, 25, "focus", true⟩] :=
  ⟨by decide,
   (cancel_pomodoro_session_amended [⟨1, 7, "math", 0, 3, 25, "focus", true⟩]
      1).2.2.2 (by decide)⟩

/-- C6: friendship is symmetric once accepted: when the recipient of a
pending request accepts it, the single accepted directed row makes each user
appear in the friends list of the other, because the list query checks both
directions. -/
theorem friendship_symmetric_after_accept (db : FriendDB) (f : FriendshipRow)
    (uA uB : UserRow) (hf : f ∈ db.friendships) (hA : uA ∈ db.users)
    (hB : uB ∈ db.users) (hfu : f.user_id = uA.user_id)
    (hff : f.friend_id = uB.user_id) (hstat : f.status = FStatus.pending) :
    uB ∈ get_friends_list
        (respond_to_request db f.friendship_id uB.user_id true).2 uA.user_id ∧
    uA ∈ get_friends_list
        (respond_to_request db f.friendship_id uB.user_id true).2 uB.user_id := by
  cases hfind : db.friendships.find? (fun g =>
      g.friendship_id = f.friendship_id ∧ g.friend_id = uB.user_id ∧
      g.status = FStatus.pending) with
  | none =>
    rw [List.find?_eq_none] at hfind
    exact absurd (decide_eq_true ⟨rfl, hff, hstat⟩) (hfind f hf)
  | some g =>
    have hstate : (respond_to_request db f.friendship_id uB.user_id true).2 =
        { db with friendships := db.friendships.map (fun x =>
            if x.friendship_id = f.friendship_id then
              { x with status := FStatus.accepted } else x) } := by
      unfold respond_to_request
      rw [hfind]
      rfl
    rw [hstate]
    clear hstate
    constructor
    · unfold get_friends_list
      apply List.mem_filter.mpr
      refine ⟨hB, ?_⟩
      unfold acceptedBetween
      apply List.any_eq_true.mpr
      refine ⟨{ f with status := FStatus.accepted }, ?_, ?_⟩
      · exact List.mem_map.mpr ⟨f, hf, by rw [if_pos rfl]⟩
      · exact decide_eq_true ⟨Or.inl ⟨hfu, hff⟩, rfl⟩
    · unfold get_friends_list
      apply List.mem_filter.mpr
      refine ⟨hA, ?_⟩
      unfold acceptedBetween
      apply List.any_eq_true.mpr
      refine ⟨{ f with status := FStatus.accepted }, ?_, ?_⟩
      · exact List.mem_map.mpr ⟨f, hf, by rw [if_pos rfl]⟩
      · exact decide_eq_true ⟨Or.inr ⟨hff, hfu⟩, rfl⟩

/-- Witness for `friendship_symmetric_after_accept`: bob accepts the request
of alice and appears in her friends list. -/
theorem friendship_symmetric_after_accept_witness :
    ((⟨5, 1, 2, FStatus.pending⟩ : FriendshipRow) ∈
      ([⟨5, 1, 2, FStatus.pending⟩] : List FriendshipRow)) ∧
    (⟨2, "bob"⟩ : UserRow) ∈ get_friends_list
      (respond_to_request
        ⟨[⟨1, "alice"⟩, ⟨2, "bob"⟩], [⟨5, 1, 2, FStatus.pending⟩], 6⟩ 5 2 true).2 1 :=
  ⟨by decide,
   (friendship_symmetric_after_accept
      ⟨[⟨1, "alice"⟩, ⟨2, "bob"⟩], [⟨5, 1, 2, FStatus.pending⟩], 6⟩
      ⟨5, 1, 2, FStatus.pending⟩ ⟨1, "alice"⟩ ⟨2, "bob"⟩
      (by decide) (by decide) (by decide) rfl rfl rfl).1⟩

/-- C8: on states produced by this codebase (every pomodoro row has
`session_type = "focus"`, the only value `start_pomodoro_session` ever
inserts), `get_total_study_time_including_pomodoros` returns the sum of all
manual durations of the user, the sum of the durations of the completed
pomodoro sessions of the user, their exact total, and the div/mod 60 split of
that total. -/
theorem total_study_time_correct (sessions : List StudySession)
    (pomos : List PomoSession) (uid : Nat)
    (hfocus : ∀ p ∈ pomos, p.session_type = "focus") :
    (get_total_study_time_including_pomodoros sessions pomos uid).regular_minutes =
      ((sessions.filter (fun s => s.user_id = uid)).map
        (fun s => s.duration_minutes)).sum ∧
    (get_total_study_time_including_pomodoros sessions pomos uid).pomodoro_minutes =
      ((pomos.filter (fun p => p.user_id = uid ∧ p.completed = true)).map
        (fun p => p.duration)).sum ∧
    (get_total_study_time_including_pomodoros sessions pomos uid).total_minutes =
      (get_total_study_time_including_pomodoros sessions pomos uid).regular_minutes +
        (get_total_study_time_including_pomodoros sessions pomos uid).pomodoro_minutes ∧
    (get_total_study_time_including_pomodoros sessions pomos uid).total_minutes =
      60 * (get_total_study_time_including_pomodoros sessions pomos uid).total_hours +
        (get_total_study_time_including_pomodoros sessions pomos uid).remaining_minutes ∧
    (get_total_study_time_including_pomodoros sessions pomos uid).remaining_minutes
      < 60 := by
  have hfilt : pomos.filter (fun p =>
      p.user_id = uid ∧ p.completed = true ∧ p.session_type = "focus") =
      pomos.filter (fun p => p.user_id = uid ∧ p.completed = true) := by
    apply List.filter_congr
    intro p hp
    rw [decide_eq_decide]
    constructor
    · rintro ⟨h1, h2, _⟩
      exact ⟨h1, h2⟩
    · rintro ⟨h1, h2⟩
      exact ⟨h1, h2, hfocus p hp⟩
  refine ⟨rfl, ?_, rfl, ?_, ?_⟩
  · show ((pomos.filter (fun p =>
        p.user_id = uid ∧ p.completed = true ∧ p.session_type = "focus")).map
      (fun p => p.duration)).sum = _
    rw [hfilt]
  · exact (Nat.div_add_mod _ 60).symm
  · exact Nat.mod_lt _ (by norm_num)

/-- Witness for `total_study_time_correct` at a one-session store. -/
theorem total_study_time_correct_witness :
    (∀ p ∈ ([⟨1, 1, "m", 0, 0, 25, "focus", true⟩] : List PomoSession),
      p.session_type = "focus") ∧
    (get_total_study_time_including_pomodoros [⟨1, "m", 30, 0⟩]
        [⟨1, 1, "m", 0, 0, 25, "focus", true⟩] 1).pomodoro_minutes =
      ((([⟨1, 1, "m", 0, 0, 25, "focus", true⟩] : List PomoSession).filter
          (fun p => p.user_id = 1 ∧ p.completed = true)).map
        (fun p => p.duration)).sum :=
  ⟨by decide,
   (total_study_time_correct [⟨1, "m", 30, 0⟩]
      [⟨1, 1, "m", 0, 0, 25, "focus", true⟩] 1 (by decide)).2.1⟩

/-- Helper: when the subjects of a goal list are pairwise distinct, filtering
it by the subject/target key of one of its members yields exactly that
member. -/
theorem goal_filter_singleton (gs : List GoalRow)
    (h : (gs.map (fun g => g.subject)).Nodup) (g : GoalRow) (hg : g ∈ gs) :
    gs.filter (fun x => x.subject = g.subject ∧
      x.weekly_target_minutes = g.weekly_target_minutes) = [g] := by
  induction gs with
  | nil => cases hg
  | cons b l ih =>
    rw [List.map_cons, List.nodup_cons] at h
    rcases List.mem_cons.mp hg with rfl | hgl
    · rw [List.filter_cons, if_pos (decide_eq_true ⟨rfl, rfl⟩)]
      have hnil : l.filter (fun x => x.subject = g.subject ∧
          x.weekly_target_minutes = g.weekly_target_minutes) = [] := by
        rw [List.filter_eq_nil_iff]
        intro x hx hpx
        have hp := of_decide_eq_true hpx
        exact h.1 (List.mem_map.mpr ⟨x, hx, hp.1⟩)
      rw [hnil]
    · have hb : ¬ (b.subject = g.subject ∧
          b.weekly_target_minutes = g.weekly_target_minutes) := by
        rintro ⟨hs, -⟩
        exact h.1 (List.mem_map.mpr ⟨g, hgl, hs.symm⟩)
      rw [List.filter_cons, if_neg (fun hcon => hb (of_decide_eq_true hcon))]
      exact ih h.2 hgl

/-- C1: under the `UNIQUE(user_id, subject, week_start_date)` schema
constraint (here: distinct subjects among the goals of the user for the
week), `get_weekly_progress` returns one row per declared goal of that week,
whose actual minutes are the exact session sum of the inclusive
`[week_start, week_start + 6]` window (0 when no session matches), and every
output row comes from such a goal — a subject with sessions but no goal row
never appears. -/
theorem get_weekly_progress_exact (goals : List GoalRow)
    (sessions : List StudySession) (uid : Nat) (week_start : Int)
    (huniq : ((weekGoals goals uid week_start).map (fun g => g.subject)).Nodup) :
    (∀ g ∈ goals, g.user_id = uid → g.week_start_date = week_start →
      (g.subject, g.weekly_target_minutes,
        sessionSum sessions uid g.subject week_start) ∈
        get_weekly_progress goals sessions uid week_start) ∧
    (∀ subject target actual,
      (subject, target, actual) ∈ get_weekly_progress goals sessions uid week_start →
      ∃ g ∈ goals, g.user_id = uid ∧ g.week_start_date = week_start ∧
        g.subject = subject ∧ g.weekly_target_minutes = target ∧
        actual = sessionSum sessions uid subject week_start) ∧
    (get_weekly_progress goals sessions uid week_start).length =
      (weekGoals goals uid week_start).length := by
  have hkeys : ((weekGoals goals uid week_start).map
      (fun g => (g.subject, g.weekly_target_minutes))).Nodup := by
    have hfst : (((weekGoals goals uid week_start).map
        (fun g => (g.subject, g.weekly_target_minutes))).map Prod.fst).Nodup := by
      rw [List.map_map]
      exact huniq
    exact hfst.of_map
  have hout : get_weekly_progress goals sessions uid week_start =
      (weekGoals goals uid week_start).map (fun g =>
        (g.subject, g.weekly_target_minutes,
          sessionSum sessions uid g.subject week_start)) := by
    show (((weekGoals goals uid week_start).map
        (fun g => (g.subject, g.weekly_target_minutes))).dedup).map
      (fun k => (k.1, k.2,
        (((weekGoals goals uid week_start).filter (fun g => g.subject = k.1 ∧
            g.weekly_target_minutes = k.2)).map
          (fun g => sessionSum sessions uid g.subject week_start)).sum)) = _
    rw [List.dedup_eq_self.mpr hkeys, List.map_map]
    apply List.map_congr_left
    intro g hg
    show (g.subject, g.weekly_target_minutes,
      (((weekGoals goals uid week_start).filter (fun x => x.subject = g.subject ∧
          x.weekly_target_minutes = g.weekly_target_minutes)).map
        (fun x => sessionSum sessions uid x.subject week_start)).sum) = _
    rw [goal_filter_singleton _ huniq g hg]
    simp
  refine ⟨?_, ?_, ?_⟩
  · intro g hg h1 h2
    rw [hout]
    apply List.mem_map.mpr
    refine ⟨g, ?_, rfl⟩
    exact List.mem_filter.mpr ⟨hg, decide_eq_true ⟨h1, h2⟩⟩
  · intro subject target actual hrow
    rw [hout] at hrow
    obtain ⟨g, hg, heq⟩ := List.mem_map.mp hrow
    have hgf := List.mem_filter.mp hg
    have hprops := of_decide_eq_true hgf.2
    simp only [Prod.mk.injEq] at heq
    refine ⟨g, hgf.1, hprops.1, hprops.2, heq.1, heq.2.1, ?_⟩
    rw [← heq.1]
    exact heq.2.2.symm
  · rw [hout, List.length_map]

/-- Witness for `get_weekly_progress_exact`: sessions of 30 and 45 minutes
for Math in the goal week with a 120-minute target report (Math, 120, 75). -/
theorem get_weekly_progress_exact_witness :
    (((weekGoals [⟨1, "Math", 120, 0⟩] 1 0).map (fun g => g.subject)).Nodup) ∧
    ("Math", 120, 75) ∈ get_weekly_progress [⟨1, "Math", 120, 0⟩]
      [⟨1, "Math", 30, 0⟩, ⟨1, "Math", 45, 3⟩] 1 0 :=
  ⟨by decide,
   (get_weekly_progress_exact [⟨1, "Math", 120, 0⟩]
      [⟨1, "Math", 30, 0⟩, ⟨1, "Math", 45, 3⟩] 1 0 (by decide)).1
     ⟨1, "Math", 120, 0⟩ (by decide) rfl rfl⟩

/-- C9: for every row of the weekly-progress output, the percentage figure of
`print_study_summary` equals actual / target × 100 when the target is
positive (equivalently, percentage × target = actual × 100), and is 0 when
the target is 0 — the guard means a zero target never triggers a division by
zero. -/
theorem goal_percentage_guarded (goals : List GoalRow)
    (sessions : List StudySession) (uid : Nat) (week_start : Int)
    (subject : String) (target actual : Nat)
    (_hmem : (subject, target, actual) ∈
      get_weekly_progress goals sessions uid week_start) :
    (0 < target → goalPercentage actual target = (actual : ℚ) / (target : ℚ) * 100 ∧
      goalPercentage actual target * (target : ℚ) = (actual : ℚ) * 100) ∧
    (target = 0 → goalPercentage actual target = 0) := by
  constructor
  · intro ht
    constructor
    · unfold goalPercentage
      rw [if_pos ht]
    · unfold goalPercentage
      rw [if_pos ht]
      have htne : (target : ℚ) ≠ 0 :=
        Nat.cast_ne_zero.mpr (Nat.pos_iff_ne_zero.mp ht)
      field_simp
  · intro h0
    unfold goalPercentage
    rw [if_neg (by omega)]

/-- Witness for `goal_percentage_guarded`: the (Math, 120, 75) row yields
exactly 75 / 120 × 100. -/
theorem goal_percentage_guarded_witness :
    ("Math", 120, 75) ∈ get_weekly_progress [⟨1, "Math", 120, 0⟩]
      [⟨1, "Math", 30, 0⟩, ⟨1, "Math", 45, 3⟩] 1 0 ∧
    goalPercentage 75 120 = (75 : ℚ) / (120 : ℚ) * 100 :=
  ⟨by decide,
   ((goal_percentage_guarded [⟨1, "Math", 120, 0⟩]
      [⟨1, "Math", 30, 0⟩, ⟨1, "Math", 45, 3⟩] 1 0 "Math" 120 75
      (by decide)).1 (by norm_num)).1⟩

/-- C2 counterexample: the 7-day windows of `get_friends_progress` have no
upper bound (`>= today - 7` only), so a future-dated manual session of a
friend (here dated tomorrow) is counted in `weekly_minutes`, while the
trailing-7-days reading of the claim counts 0. -/
theorem friends_progress_window_counterexample :
    ¬ (∀ r ∈ get_friends_progress
          ⟨[⟨1, "alice"⟩, ⟨2, "bob"⟩], [⟨1, 1, 2, FStatus.accepted⟩], 2⟩
          [⟨2, "math", 30, 1⟩] [] 1 0,
        r.weekly_minutes =
          specTrailingWeekMinutes [⟨2, "math", 30, 1⟩] r.user_id 0 +
            specPomodoroTrailingMinutes [] r.user_id 0) := by
  decide

/-- C2 amended: `get_friends_progress` returns one record per accepted friend
of the user; its `weekly_minutes` is the sum of the manual durations of the
friend with `session_date ≥ today − 7` plus the completed-pomodoro durations
with started date `≥ today − 7` — both windows unbounded above, so
future-dated rows count — and `today_sessions` counts the completed pomodoro
sessions of the friend started today.  With distinct user ids in the `users`
table, no friend appears twice. -/
theorem get_friends_progress_amended (db : FriendDB)
    (sessions : List StudySession) (pomos : List PomodoroRow) (uid : Nat)
    (today : Int) (hids : (db.users.map (fun u => u.user_id)).Nodup) :
    (∀ u ∈ db.users, acceptedBetween db.friendships uid u.user_id = true →
      (⟨u.user_id, u.username,
        regularWeekMinutes sessions u.user_id today +
          pomodoroWeekMinutes pomos u.user_id today,
        todaySessionCount pomos u.user_id today⟩ : FriendProgress) ∈
        get_friends_progress db sessions pomos uid today) ∧
    (∀ r ∈ get_friends_progress db sessions pomos uid today,
      ∃ u ∈ db.users, acceptedBetween db.friendships uid u.user_id = true ∧
        r = ⟨u.user_id, u.username,
          regularWeekMinutes sessions u.user_id today +
            pomodoroWeekMinutes pomos u.user_id today,
          todaySessionCount pomos u.user_id today⟩) ∧
    ((get_friends_progress db sessions pomos uid today).map
      (fun r => r.user_id)).Nodup := by
  refine ⟨?_, ?_, ?_⟩
  · intro u hu hacc
    apply List.mem_map.mpr
    exact ⟨u, List.mem_filter.mpr ⟨hu, hacc⟩, rfl⟩
  · intro r hr
    obtain ⟨u, hu, rfl⟩ := List.mem_map.mp hr
    exact ⟨u, (List.mem_filter.mp hu).1, (List.mem_filter.mp hu).2, rfl⟩
  · show (((db.users.filter (fun u =>
        acceptedBetween db.friendships uid u.user_id)).map _).map
        (fun r : FriendProgress => r.user_id)).Nodup
    rw [List.map_map]
    exact hids.sublist ((List.filter_sublist _).map _)

/-- Witness for `get_friends_progress_amended`: bob, an accepted friend of
alice, appears with his 30 counted minutes. -/
theorem get_friends_progress_amended_witness :
    ((([⟨1, "alice"⟩, ⟨2, "bob"⟩] : List UserRow).map (fun u => u.user_id)).Nodup) ∧
    (⟨2, "bob", 30, 0⟩ : FriendProgress) ∈ get_friends_progress
      ⟨[⟨1, "alice"⟩, ⟨2, "bob"⟩], [⟨1, 1, 2, FStatus.accepted⟩], 2⟩
      [⟨2, "math", 30, 1⟩] [] 1 0 :=
  ⟨by decide,
   (get_friends_progress_amended
      ⟨[⟨1, "alice"⟩, ⟨2, "bob"⟩], [⟨1, 1, 2, FStatus.accepted⟩], 2⟩
      [⟨2, "math", 30, 1⟩] [] 1 0 (by decide)).1 ⟨2, "bob"⟩ (by decide)
     (by decide)⟩

/-- C5 counterexample: a reverse-direction rejected row does not block a new
request: with only (bob → alice, rejected) stored, alice sending to bob
succeeds and appends a second row, refuting failure whenever any row exists
between the pair. -/
theorem send_request_rejected_counterexample :
    (send_friend_request
        ⟨[⟨1, "alice"⟩, ⟨2, "bob"⟩], [⟨1, 2, 1, FStatus.rejected⟩], 2⟩
        1 "bob").1.1 = true ∧
    (send_friend_request
        ⟨[⟨1, "alice"⟩, ⟨2, "bob"⟩], [⟨1, 2, 1, FStatus.rejected⟩], 2⟩
        1 "bob").2.friendships =
      [⟨1, 2, 1, FStatus.rejected⟩, ⟨2, 1, 2, FStatus.pending⟩] := by
  decide

/-- C5 amended: for a resolvable friend and distinct users,
`send_friend_request` fails without inserting when the fetched existing row
between the pair has status pending, accepted or blocked; when no row exists
between them, or the fetched row is rejected, the outcome is decided by the
`UNIQUE(user_id, friend_id)` constraint: a same-direction row of any status
makes the INSERT fail (store unchanged), otherwise the call succeeds and
appends exactly one new pending row. -/
theorem send_friend_request_amended (db : FriendDB) (uid : Nat) (fu : String)
    (u : UserRow) (hfind : db.users.find? (fun x => x.username = fu) = some u)
    (hne : uid ≠ u.user_id) :
    (∀ f0, db.friendships.find? (betweenPair uid u.user_id) = some f0 →
      f0.status ≠ FStatus.rejected →
      (send_friend_request db uid fu).1.1 = false ∧
        (send_friend_request db uid fu).2 = db) ∧
    ((db.friendships.find? (betweenPair uid u.user_id) = none ∨
      (∃ f0, db.friendships.find? (betweenPair uid u.user_id) = some f0 ∧
        f0.status = FStatus.rejected)) →
      (db.friendships.any (sameDirection uid u.user_id) = true →
        (send_friend_request db uid fu).1.1 = false ∧
          (send_friend_request db uid fu).2 = db) ∧
      (db.friendships.any (sameDirection uid u.user_id) = false →
        (send_friend_request db uid fu).1.1 = true ∧
          (send_friend_request db uid fu).2.friendships =
            db.friendships ++
              [⟨db.next_friendship_id, uid, u.user_id, FStatus.pending⟩])) := by
  have hins1 : db.friendships.any (sameDirection uid u.user_id) = true →
      (insertPending db uid u.user_id).1.1 = false ∧
        (insertPending db uid u.user_id).2 = db := by
    intro hany
    unfold insertPending
    rw [if_pos hany]
    exact ⟨rfl, rfl⟩
  have hins2 : db.friendships.any (sameDirection uid u.user_id) = false →
      (insertPending db uid u.user_id).1.1 = true ∧
        (insertPending db uid u.user_id).2.friendships =
          db.friendships ++
            [⟨db.next_friendship_id, uid, u.user_id, FStatus.pending⟩] := by
    intro hany
    unfold insertPending
    rw [if_neg (by simp [hany])]
    exact ⟨rfl, rfl⟩
  have hsend : send_friend_request db uid fu =
      match db.friendships.find? (betweenPair uid u.user_id) with
      | some e =>
        if e.status = FStatus.accepted then ((false, "Already friends"), db)
        else if e.status = FStatus.pending then
          ((false, "Friend request already pending"), db)
        else if e.status = FStatus.blocked then
          ((false, "Cannot send friend request"), db)
        else insertPending db uid u.user_id
      | none => insertPending db uid u.user_id := by
    unfold send_friend_request
    rw [hfind]
    show (if uid = u.user_id then ((false, "Cannot add yourself as a friend"), db)
      else match db.friendships.find? (betweenPair uid u.user_id) with
      | some e =>
        if e.status = FStatus.accepted then ((false, "Already friends"), db)
        else if e.status = FStatus.pending then
          ((false, "Friend request already pending"), db)
        else if e.status = FStatus.blocked then
          ((false, "Cannot send friend request"), db)
        else insertPending db uid u.user_id
      | none => insertPending db uid u.user_id) = _
    rw [if_neg hne]
  constructor
  · intro f0 hf0 hrej
    rw [hsend, hf0]
    obtain ⟨fid0, us0, fr0, st0⟩ := f0
    cases st0 with
    | pending => exact ⟨rfl, rfl⟩
    | accepted => exact ⟨rfl, rfl⟩
    | rejected => exact absurd rfl hrej
    | blocked => exact ⟨rfl, rfl⟩
  · rintro (hnone | ⟨f0, hf0, hrej⟩)
    · rw [hsend, hnone]
      exact ⟨hins1, hins2⟩
    · rw [hsend, hf0]
      obtain ⟨fid0, us0, fr0, st0⟩ := f0
      cases st0 with
      | pending => exact absurd hrej (fun h => FStatus.noConfusion h)
      | accepted => exact absurd hrej (fun h => FStatus.noConfusion h)
      | blocked => exact absurd hrej (fun h => FStatus.noConfusion h)
      | rejected => exact ⟨hins1, hins2⟩

/-- Witness for `send_friend_request_amended`: with no prior rows, the
request succeeds. -/
theorem send_friend_request_amended_witness :
    ((([⟨1, "alice"⟩, ⟨2, "bob"⟩] : List UserRow).find?
        (fun x => x.username = "bob") = some ⟨2, "bob"⟩) ∧ 1 ≠ 2) ∧
    (send_friend_request ⟨[⟨1, "alice"⟩, ⟨2, "bob"⟩], [], 1⟩ 1 "bob").1.1 = true :=
  ⟨⟨by decide, by decide⟩,
   (((send_friend_request_amended ⟨[⟨1, "alice"⟩, ⟨2, "bob"⟩], [], 1⟩ 1 "bob"
        ⟨2, "bob"⟩ (by decide) (by decide)).2 (Or.inl (by decide))).2
      (by decide)).1⟩

end StudyLogix
